import Mathlib

/-!
Shallow embedding of `src/lambda_function.py` from the repository
`kurokood/stock-market-data-analytics-pipeline`.

The pipeline consumes a batch of Kinesis records.  Each record's payload is
base64-decoded and JSON-parsed; the resulting payload is validated
(`validate_record`), archived to S3 (`archive_raw_data_to_s3`) and upserted
into DynamoDB (`store_processed_data_in_dynamodb`), while `lambda_handler`
keeps a processed/failed tally.

JSON values decoded by `json.loads` are modelled by `JVal`; the external
collaborators (base64+json decoding, the S3 client, the DynamoDB table and
the `datetime.utcnow()` clock) are modelled by an environment record `Env`,
so every theorem quantifies over all behaviours of those collaborators.
Python exceptions are modelled with `Option`/`Except`: a `none`/`.error`
result at the point where CPython would raise.
-/

/-- Characters treated as whitespace by Python's `str.strip`, `float(str)`
and `int(str)` (ASCII subset; exotic Unicode whitespace is out of scope of
the payloads this pipeline sees). -/
def isSpaceChar (c : Char) : Bool :=
  c = ' ' || c = '\t' || c = '\n' || c = '\r' || c = '\x0b' || c = '\x0c'

/-- Strip leading and trailing whitespace from a character list. -/
def stripWs (l : List Char) : List Char :=
  ((l.dropWhile isSpaceChar).reverse.dropWhile isSpaceChar).reverse

/-- Drop one leading `+`/`-` sign, as the CPython numeric-string parsers do. -/
def dropSign (l : List Char) : List Char :=
  match l with
  | c :: r => if c = '+' || c = '-' then r else l
  | [] => []

/-- True for a leading `-` sign. -/
def signNeg (l : List Char) : Bool :=
  match l with
  | '-' :: _ => true
  | _ => false

/-- The exponent marker of Python numeric literals. -/
def eMark (c : Char) : Bool := c = 'e' || c = 'E'

/-- The decimal point. -/
def dotMark (c : Char) : Bool := c = '.'

/-- Not an underscore (PEP 515 digit-group separator). -/
def noU (c : Char) : Bool := c != '_'

/-- Split a character list at the first character satisfying `p`:
returns the part before it and, when found, the part after it. -/
def breakFirst (p : Char → Bool) : List Char → List Char × Option (List Char)
  | [] => ([], none)
  | c :: r =>
    if p c then ([], some r)
    else
      let (a, b) := breakFirst p r
      (c :: a, b)

/-- State of `digitsU` after having just read a digit: the rest may continue
with digits, or with an underscore that must be followed by a digit. -/
def digitsUAux : List Char → Bool
  | [] => true
  | c :: rest =>
    if c = '_' then
      match rest with
      | d :: r => d.isDigit && digitsUAux r
      | [] => false
    else c.isDigit && digitsUAux rest

/-- A non-empty digit run in which single underscores may appear between two
digits — the digit-sequence grammar of CPython's `float(str)` / `int(str)`
(PEP 515). -/
def digitsU (l : List Char) : Bool :=
  match l with
  | c :: r => c.isDigit && digitsUAux r
  | [] => false

/-- A non-empty run of plain digits. -/
def digitsPlain (l : List Char) : Bool :=
  !l.isEmpty && l.all (fun c => c.isDigit)

/-- Case-insensitive comparison of a character list with a keyword. -/
def lowerIs (l : List Char) (w : String) : Bool :=
  l.map Char.toLower == w.data

/-- The numeric part of CPython's `float(str)` grammar (sign already
stripped): `digits [. digits]` or `. digits`, with an optional
`(e|E)[+-]digits` exponent; underscores only between digits. -/
def floatNumericU (b : List Char) : Bool :=
  let me := breakFirst eMark b
  let expOk :=
    match me.2 with
    | none => true
    | some ex => digitsU (dropSign ex)
  let ifp := breakFirst dotMark me.1
  let mantOk :=
    match ifp.2 with
    | none => digitsU ifp.1
    | some f => (digitsU ifp.1 && (f.isEmpty || digitsU f)) || (ifp.1.isEmpty && digitsU f)
  mantOk && expOk

/-- The special values accepted by `float(str)` after the optional sign. -/
def floatSpecial (b : List Char) : Bool :=
  lowerIs b ("inf") || lowerIs b ("infinity") || lowerIs b ("nan")

/-- Whether CPython's `float` succeeds on the characters of a string. -/
def pyFloatChars (l0 : List Char) : Bool :=
  let b := dropSign (stripWs l0)
  floatSpecial b || floatNumericU b

/-- Whether CPython's `float(s)` succeeds on the string `s`. -/
def pyFloatStrOk (s : String) : Bool :=
  pyFloatChars s.data

/-- Digit characters, used to build decimal renderings whose characters are
easy to reason about. -/
def digitChar (n : Nat) : Char :=
  match n with
  | 0 => '0' | 1 => '1' | 2 => '2' | 3 => '3' | 4 => '4'
  | 5 => '5' | 6 => '6' | 7 => '7' | 8 => '8' | _ => '9'

/-- Fuel-driven accumulator loop producing the base-10 digits of `n`
(most significant first).  The fuel only bounds the recursion; `natDigits`
always supplies enough. -/
def natDigitsCore : Nat → Nat → List Char → List Char
  | 0, _, acc => acc
  | fuel + 1, n, acc =>
    let d := digitChar (n % 10)
    if n < 10 then d :: acc else natDigitsCore fuel (n / 10) (d :: acc)

/-- Base-10 digit characters of a natural number, as Python's `str` writes
them. -/
def natDigits (n : Nat) : List Char :=
  natDigitsCore (n + 1) n []

/-- `str` of a natural number. -/
def natRenderS (n : Nat) : String := ⟨natDigits n⟩

/-- `str` of a Python int. -/
def intRenderS (i : Int) : String :=
  if i < 0 then "-" ++ natRenderS i.natAbs else natRenderS i.natAbs

/-- Numeric value of a plain digit run. -/
def natOfDigits (l : List Char) : Nat :=
  l.foldl (fun a c => a * 10 + (c.toNat - 48)) 0

/-- Whether CPython's `int(s)` succeeds on string `s`, and its value:
optional whitespace and sign, then digits with underscores between digits. -/
def pyIntStr (s : String) : Option Int :=
  let l := stripWs s.data
  let b := dropSign l
  if digitsU b then
    let n : Int := natOfDigits (b.filter noU)
    some (if signNeg l then -n else n)
  else none

/-- A JSON value as produced by Python's `json.loads`.  Non-integral JSON
numbers become Python floats; a float is modelled by the decimal value
`m / 10^e` of its shortest `repr` (the model keeps that decimal exactly, so
`str(float)` is the fixed-point rendering of `(m, e)`; binary rounding of
extreme literals is outside the model). -/
inductive JVal where
  | jstr (s : String)
  | jint (n : Int)
  | jnum (m : Int) (e : Nat)
  | jbool (b : Bool)
  | jnull
  | jarr (l : List JVal)
  | jdict (d : List (String × JVal))

/-- A decoded JSON object — the payload dictionary. -/
abbrev Payload := List (String × JVal)

/-- A value of Python's `decimal.Decimal`: finite coefficient/exponent form,
infinity, or (signalling) NaN.  NaN diagnostic payloads are accepted by the
parser but not retained. -/
inductive Dec where
  | finite (neg : Bool) (coeff : Nat) (exp : Int)
  | infty (neg : Bool)
  | nan (neg : Bool)
  | snan (neg : Bool)
deriving DecidableEq, Repr

/-- `decimal.Decimal` on the characters of a string: per the library,
leading/trailing whitespace and all underscores are removed, then the
numeric-string grammar
`sign? (digits [. digits*] | . digits+) ([eE] sign? digits+)?` or the
specials `inf`, `infinity`, `nan...`, `snan...` (case-insensitive) apply.
`none` models the `InvalidOperation` raised on anything else. -/
def pyDecimalChars (l0 : List Char) : Option Dec :=
  let l := (stripWs l0).filter noU
  let neg := signNeg l
  let b := dropSign l
  let lb := b.map Char.toLower
  if lb == ("inf").data || lb == ("infinity").data then some (.infty neg)
  else if lb.take 3 == ("nan").data && (lb.drop 3).all (fun c => c.isDigit) then
    some (.nan neg)
  else if lb.take 4 == ("snan").data && (lb.drop 4).all (fun c => c.isDigit) then
    some (.snan neg)
  else
    let me := breakFirst eMark b
    let ifp := breakFirst dotMark me.1
    let f := ifp.2.getD []
    let mantOk :=
      (digitsPlain ifp.1 && f.all (fun c => c.isDigit)) ||
      (ifp.1.isEmpty && ifp.2.isSome && digitsPlain f)
    match me.2 with
    | none =>
      if mantOk then some (.finite neg (natOfDigits (ifp.1 ++ f)) (-(f.length : Int)))
      else none
    | some ex =>
      let ed := dropSign ex
      if mantOk && digitsPlain ed then
        let ev : Int := if signNeg ex then -(natOfDigits ed : Int) else (natOfDigits ed : Int)
        some (.finite neg (natOfDigits (ifp.1 ++ f)) (ev - (f.length : Int)))
      else none

/-- `decimal.Decimal(s)` for a string `s`. -/
def pyDecimalOfStr (s : String) : Option Dec :=
  pyDecimalChars s.data

/-- Truncating division toward zero, as Python's `int(float)` truncates. -/
def truncDiv (m : Int) (d : Nat) : Int :=
  if m < 0 then -(((-m).toNat / d : Nat) : Int) else ((m.toNat / d : Nat) : Int)

/-- Whether Python's `float(v)` succeeds on a JSON-decoded value `v`:
ints, floats and bools convert; strings via the `float(str)` grammar;
`None`, lists and dicts raise `TypeError`. -/
def canFloat (v : JVal) : Bool :=
  match v with
  | .jstr s => pyFloatStrOk s
  | .jint _ => true
  | .jnum _ _ => true
  | .jbool _ => true
  | .jnull => false
  | .jarr _ => false
  | .jdict _ => false

/-- Python's `int(v)` on a JSON-decoded value: `some` with the resulting
value when the conversion succeeds, `none` when it raises
(`ValueError`/`TypeError`).  Floats truncate toward zero. -/
def pyIntOf (v : JVal) : Option Int :=
  match v with
  | .jint n => some n
  | .jbool b => some (if b then 1 else 0)
  | .jnum m e => some (truncDiv m (10 ^ e))
  | .jstr s => pyIntStr s
  | .jnull => none
  | .jarr _ => none
  | .jdict _ => none

/-- Whether Python's `int(v)` succeeds. -/
def canInt (v : JVal) : Bool := (pyIntOf v).isSome

/-- Fixed-point decimal rendering of the float value `m / 10^e`
(Python's `repr`; the model always uses fixed-point and a trailing `.0`
for integral floats, eliding `repr`'s scientific notation for extreme
magnitudes). -/
def numRender (m : Int) (e : Nat) : List Char :=
  let sign : List Char := if m < 0 then ['-'] else []
  let ds := natDigits m.natAbs
  if e = 0 then sign ++ ds ++ ['.', '0']
  else
    let padded := List.replicate (e + 1 - ds.length) '0' ++ ds
    sign ++ padded.take (padded.length - e) ++ '.' :: padded.drop (padded.length - e)

mutual

/-- Structural size of a JSON value, used as recursion fuel for rendering. -/
def jvalSize : JVal → Nat
  | .jarr l => jvalSizeList l + 1
  | .jdict d => jvalSizeObj d + 1
  | _ => 1

/-- Structural size of a JSON array body. -/
def jvalSizeList : List JVal → Nat
  | [] => 0
  | v :: r => jvalSize v + jvalSizeList r + 1

/-- Structural size of a JSON object body. -/
def jvalSizeObj : List (String × JVal) → Nat
  | [] => 0
  | kv :: r => jvalSize kv.2 + jvalSizeObj r + 1

end

/-- Python `repr` of a JSON-decoded value, fuel-driven through containers
(strings are single-quoted without further escaping — an approximation of
`repr`'s quote/escape selection, irrelevant to every claim). -/
def pyReprF : Nat → JVal → String
  | 0, _ => ""
  | fuel + 1, v =>
    match v with
    | .jstr s => "\x27" ++ s ++ "\x27"
    | .jint n => intRenderS n
    | .jnum m e => ⟨numRender m e⟩
    | .jbool b => if b then "True" else "False"
    | .jnull => "None"
    | .jarr l => "[" ++ String.intercalate (", ") (l.map (pyReprF fuel)) ++ "]"
    | .jdict d =>
      "\x7b" ++ String.intercalate (", ")
        (d.map (fun kv => "\x27" ++ kv.1 ++ "\x27: " ++ pyReprF fuel kv.2)) ++ "\x7d"

/-- Python `str` of a JSON-decoded value (as interpolated by f-strings). -/
def pyStr (v : JVal) : String :=
  match v with
  | .jstr s => s
  | .jint n => intRenderS n
  | .jnum m e => ⟨numRender m e⟩
  | .jbool b => if b then "True" else "False"
  | .jnull => "None"
  | .jarr l => pyReprF (jvalSize (JVal.jarr l) + 1) (.jarr l)
  | .jdict d => pyReprF (jvalSize (JVal.jdict d) + 1) (.jdict d)

/-- `validate_record` (src/lambda_function.py lines 81-101): requires the
keys `symbol`, `price`, `timestamp`; then `float(payload["price"])` and,
when present, `int(payload["volume"])` must succeed, their
`ValueError`/`TypeError` being caught and turned into `False`.  On a dict
payload the function is a pure boolean predicate. -/
def validate_record (p : Payload) : Bool :=
  match p.lookup ("symbol") with
  | none => false
  | some _ =>
    match p.lookup ("price") with
    | none => false
    | some pv =>
      match p.lookup ("timestamp") with
      | none => false
      | some _ =>
        canFloat pv &&
          (match p.lookup ("volume") with
           | some vv => canInt vv
           | none => true)

/-- Read two decimal digits. -/
def read2 : List Char → Option (Nat × List Char)
  | a :: b :: r =>
    if a.isDigit && b.isDigit then some ((a.toNat - 48) * 10 + (b.toNat - 48), r)
    else none
  | _ => none

/-- Read four decimal digits. -/
def read4 : List Char → Option (Nat × List Char)
  | a :: b :: c :: d :: r =>
    if a.isDigit && b.isDigit && c.isDigit && d.isDigit then
      some ((a.toNat - 48) * 1000 + (b.toNat - 48) * 100 + (c.toNat - 48) * 10 +
        (d.toNat - 48), r)
    else none
  | _ => none

/-- Gregorian leap year. -/
def isLeap (y : Nat) : Bool :=
  y % 4 == 0 && (y % 100 != 0 || y % 400 == 0)

/-- Length of a month. -/
def daysInMonth (y m : Nat) : Nat :=
  if m = 2 then (if isLeap y then 29 else 28)
  else if m = 4 ∨ m = 6 ∨ m = 9 ∨ m = 11 then 30
  else 31

/-- CPython's `_parse_hh_mm_ss_ff`: `HH[:MM[:SS[.fff[fff]]]]`, the
fractional part being exactly 3 or 6 digits.  Returns
(hour, minute, second, microsecond). -/
def parseHMSF (l : List Char) : Option (Nat × Nat × Nat × Nat) :=
  match read2 l with
  | none => none
  | some (h, r1) =>
    match r1 with
    | [] => some (h, 0, 0, 0)
    | ':' :: r2 =>
      match read2 r2 with
      | none => none
      | some (mi, r3) =>
        match r3 with
        | [] => some (h, mi, 0, 0)
        | ':' :: r4 =>
          match read2 r4 with
          | none => none
          | some (sec, r5) =>
            match r5 with
            | [] => some (h, mi, sec, 0)
            | '.' :: r6 =>
              if r6.length = 3 && r6.all (fun c => c.isDigit) then
                some (h, mi, sec, natOfDigits r6 * 1000)
              else if r6.length = 6 && r6.all (fun c => c.isDigit) then
                some (h, mi, sec, natOfDigits r6)
              else none
            | _ => none
        | _ => none
    | _ => none

/-- Split a time string at the first `+`/`-`, which CPython takes as the
start of the UTC-offset part; the flag records a `-` sign. -/
def splitTzMark : List Char → List Char × Option (Bool × List Char)
  | [] => ([], none)
  | c :: r =>
    if c = '+' then ([], some (false, r))
    else if c = '-' then ([], some (true, r))
    else
      let (a, b) := splitTzMark r
      (c :: a, b)

/-- Parse the time-of-day part of an isoformat string together with its
optional UTC offset, as CPython's `_parse_isoformat_time` does: the offset
substring must have length 5, 8 or 15 and parse as `HH:MM[:SS[.ffffff]]`,
and `timezone` requires the offset to be strictly less than 24 hours. -/
def parseTimeAndTz (l : List Char) : Option (Nat × Nat × Nat × Nat × Option Int) :=
  let st := splitTzMark l
  match parseHMSF st.1 with
  | none => none
  | some (h, mi, sec, us) =>
    match st.2 with
    | none => some (h, mi, sec, us, none)
    | some (neg, tl) =>
      if tl.length = 5 ∨ tl.length = 8 ∨ tl.length = 15 then
        match parseHMSF tl with
        | none => none
        | some (th, tm, tsec, _) =>
          let total : Int := ((th * 3600 + tm * 60 + tsec : Nat) : Int)
          if total < 86400 then some (h, mi, sec, us, some (if neg then -total else total))
          else none
      else none

/-- A parsed `datetime.datetime`: calendar fields plus an optional
fixed UTC offset in seconds (`none` for a naive datetime). -/
structure PyDateTime where
  year : Nat
  month : Nat
  day : Nat
  hour : Nat
  minute : Nat
  second : Nat
  microsecond : Nat
  tzOffset : Option Int
deriving DecidableEq, Repr

/-- `datetime.fromisoformat` as documented for CPython < 3.11: exactly
`YYYY-MM-DD`, then optionally ONE separator character (any character),
then `HH[:MM[:SS[.fff[fff]]]]` with an optional `±HH:MM[:SS[.ffffff]]`
offset; the `datetime` constructor then range-checks the fields.
The numeric components are modelled as strict digit runs. -/
def fromisoformat (s : String) : Option PyDateTime :=
  match read4 s.data with
  | none => none
  | some (y, r1) =>
    match r1 with
    | '-' :: r2 =>
      match read2 r2 with
      | none => none
      | some (mo, r3) =>
        match r3 with
        | '-' :: r4 =>
          match read2 r4 with
          | none => none
          | some (d, r5) =>
            if 1 ≤ y ∧ 1 ≤ mo ∧ mo ≤ 12 ∧ 1 ≤ d ∧ d ≤ daysInMonth y mo then
              match r5 with
              | [] => some ⟨y, mo, d, 0, 0, 0, 0, none⟩
              | _sep :: tl =>
                match parseTimeAndTz tl with
                | none => none
                | some (h, mi, sec, us, tz) =>
                  if h ≤ 23 ∧ mi ≤ 59 ∧ sec ≤ 59 then some ⟨y, mo, d, h, mi, sec, us, tz⟩
                  else none
            else none
        | _ => none
    | _ => none

/-- `timestamp.replace('Z', '+00:00')` — Python's `str.replace` substitutes
EVERY occurrence of the single-character pattern. -/
def replaceZ : List Char → List Char
  | [] => []
  | c :: r =>
    if c = 'Z' then '+' :: '0' :: '0' :: ':' :: '0' :: '0' :: replaceZ r
    else c :: replaceZ r

/-- The archiver's timestamp normalisation (line 111 of the source). -/
def normalizeTs (s : String) : String := ⟨replaceZ s.data⟩

/-- Zero-pad to two digits (`{n:02d}`). -/
def pad2 (n : Nat) : String :=
  if n < 10 then "0" ++ natRenderS n else natRenderS n

/-- Zero-pad to four digits (`{n:04d}`, also `strftime` `%Y` as produced
for the four-digit years the pipeline handles). -/
def pad4 (n : Nat) : String :=
  if n < 10 then "000" ++ natRenderS n
  else if n < 100 then "00" ++ natRenderS n
  else if n < 1000 then "0" ++ natRenderS n
  else natRenderS n

/-- The S3 key f-string of line 114:
`raw/{year:04}/{month:02}/{day:02}/{hour:02}/kinesis-records-{symbol}-{strftime %Y%m%d%H%M%S}.json`,
built from the parsed datetime's own calendar fields. -/
def mkArchiveKey (sym : String) (dt : PyDateTime) : String :=
  "raw/" ++ pad4 dt.year ++ "/" ++ pad2 dt.month ++ "/" ++ pad2 dt.day ++ "/" ++
    pad2 dt.hour ++ "/kinesis-records-" ++ sym ++ "-" ++ pad4 dt.year ++
    pad2 dt.month ++ pad2 dt.day ++ pad2 dt.hour ++ pad2 dt.minute ++
    pad2 dt.second ++ ".json"

/-- Key derivation from a symbol and the raw timestamp string: normalise
`Z`, parse, and format; `none` when parsing raises. -/
def archiveKeyStr (sym ts : String) : Option String :=
  (fromisoformat (normalizeTs ts)).map (mkArchiveKey sym)

/-- Key derivation from the payload (lines 110-114): `payload["timestamp"]`
must exist and be a string (otherwise `.replace` raises `KeyError` /
`AttributeError` inside the `try`), and `payload["symbol"]` must exist;
the symbol is interpolated with `str`. -/
def archiveKeyOfPayload (p : Payload) : Option String :=
  match p.lookup ("timestamp") with
  | some (.jstr ts) =>
    match p.lookup ("symbol") with
    | some sv => archiveKeyStr (pyStr sv) ts
    | none => none
  | _ => none

/-- Days since 1970-01-01 of a Gregorian date (Howard Hinnant's
`days_from_civil`). -/
def daysFromCivil (y m d : Int) : Int :=
  let y2 := if m ≤ 2 then y - 1 else y
  let era := Int.fdiv y2 400
  let yoe := y2 - era * 400
  let mp := Int.fmod (m + 9) 12
  let doy := (153 * mp + 2) / 5 + d - 1
  let doe := yoe * 365 + yoe / 4 - yoe / 100 + doy
  era * 146097 + doe - 719468

/-- Gregorian date of a day count since 1970-01-01 (Howard Hinnant's
`civil_from_days`). -/
def civilFromDays (z0 : Int) : Int × Int × Int :=
  let z := z0 + 719468
  let era := Int.fdiv z 146097
  let doe := z - era * 146097
  let yoe := (doe - doe / 1460 + doe / 36524 - doe / 146096) / 365
  let y := yoe + era * 400
  let doy := doe - (365 * yoe + yoe / 4 - yoe / 100)
  let mp := (5 * doy + 2) / 153
  let d := doy - (153 * mp + 2) / 5 + 1
  let m := if mp < 10 then mp + 3 else mp - 9
  (if m ≤ 2 then y + 1 else y, m, d)

/-- The UTC-converted calendar fields of an aware datetime (what
`dt.astimezone(timezone.utc)` would expose); naive datetimes are returned
unchanged. -/
def toUTC (dt : PyDateTime) : PyDateTime :=
  match dt.tzOffset with
  | none => dt
  | some off =>
    let secs : Int :=
      daysFromCivil dt.year dt.month dt.day * 86400 +
        (dt.hour * 3600 + dt.minute * 60 + dt.second : Nat) - off
    let d2 := Int.fdiv secs 86400
    let rem := (secs - d2 * 86400).toNat
    let c := civilFromDays d2
    ⟨c.1.toNat, c.2.1.toNat, c.2.2.toNat, rem / 3600, rem % 3600 / 60, rem % 60,
      dt.microsecond, some 0⟩

/-- A DynamoDB attribute value of the item built by the store writer:
payload values passed through unmodified, server-built strings, the
`Decimal` price, and the Python-int volume. -/
inductive DVal where
  | raw (v : JVal)
  | str (s : String)
  | dec (d : Dec)
  | int (n : Int)

/-- JSON string quoting of `json.dumps` (default `ensure_ascii=True`):
control and non-ASCII characters become `\\uXXXX` escapes (with surrogate
pairs beyond the BMP). -/
def hexDigit (n : Nat) : Char :=
  match n with
  | 0 => '0' | 1 => '1' | 2 => '2' | 3 => '3' | 4 => '4' | 5 => '5' | 6 => '6'
  | 7 => '7' | 8 => '8' | 9 => '9' | 10 => 'a' | 11 => 'b' | 12 => 'c'
  | 13 => 'd' | 14 => 'e' | _ => 'f'

/-- Four-hex-digit `\\uXXXX` escape. -/
def u4 (n : Nat) : List Char :=
  ['\\', 'u', hexDigit (n / 4096 % 16), hexDigit (n / 256 % 16),
   hexDigit (n / 16 % 16), hexDigit (n % 16)]

/-- Escape one character as `json.dumps` does. -/
def jsonEscChar (c : Char) : List Char :=
  if c = '"' then ['\\', '"']
  else if c = '\\' then ['\\', '\\']
  else if c = '\n' then ['\\', 'n']
  else if c = '\t' then ['\\', 't']
  else if c = '\r' then ['\\', 'r']
  else if c.toNat = 8 then ['\\', 'b']
  else if c.toNat = 12 then ['\\', 'f']
  else if c.toNat < 32 ∨ c.toNat > 126 then
    if c.toNat < 65536 then u4 c.toNat
    else u4 (55296 + (c.toNat - 65536) / 1024) ++ u4 (56320 + (c.toNat - 65536) % 1024)
  else [c]

/-- A quoted JSON string literal. -/
def jsonQuote (s : String) : String :=
  ⟨'"' :: (s.data.map jsonEscChar).flatten ++ ['"']⟩

/-- `json.dumps` with its default separators, fuel-driven through
containers (`default=str` never fires on JSON-decoded values). -/
def dumpsF : Nat → JVal → String
  | 0, _ => ""
  | fuel + 1, v =>
    match v with
    | .jstr s => jsonQuote s
    | .jint n => intRenderS n
    | .jnum m e => ⟨numRender m e⟩
    | .jbool b => if b then "true" else "false"
    | .jnull => "null"
    | .jarr l => "[" ++ String.intercalate (", ") (l.map (dumpsF fuel)) ++ "]"
    | .jdict d =>
      "\x7b" ++ String.intercalate (", ")
        (d.map (fun kv => jsonQuote kv.1 ++ ": " ++ dumpsF fuel kv.2)) ++ "\x7d"

/-- `json.dumps(v)`. -/
def jsonDumps (v : JVal) : String := dumpsF (jvalSize v + 1) v

/-- `DYNAMODB_TABLE_NAME` default (line 18). -/
def DYNAMO_TABLE : String := "stock-market-data"

/-- `S3_BUCKET_NAME` default (line 19). -/
def S3_BUCKET : String := "stock-market-data-bucket-121485"

/-- One externally visible action of the pipeline, recorded in order:
invocation of the validator, of each sink function, and each storage call
the sinks issue. -/
inductive Effect where
  | validateCall (p : Payload)
  | archiveCall (p : Payload)
  | s3Put (bucket key body : String)
  | storeCall (p : Payload)
  | dbPut (table : String) (item : List (String × DVal))

/-- The external collaborators of the handler: the combined
base64-decode/UTF-8-decode/`json.loads` step for a record's data, the
success of an `s3.put_object`, the success of a `table.put_item`, and the
`datetime.utcnow().isoformat()` clock reading.  A `false` from a storage
oracle models the call raising (network error, rejected item, …). -/
structure Env where
  decodeParse : String → Except Unit JVal
  s3PutOk : String → String → String → Bool
  dbPutOk : String → List (String × DVal) → Bool
  nowIso : String

/-- The item `store_processed_data_in_dynamodb` builds (lines 140-152):
`symbol`, `timestamp` and `price` must be present (`KeyError` otherwise),
`Decimal(str(price))` and — when `volume` is present — `int(volume)` must
succeed; `exchange` is passed through when present.  `none` models an
exception caught by the function's `except` block. -/
def buildItem (now : String) (p : Payload) : Option (List (String × DVal)) := do
  let sv ← p.lookup ("symbol")
  let tv ← p.lookup ("timestamp")
  let pv ← p.lookup ("price")
  let d ← pyDecimalOfStr (pyStr pv)
  let base := [(("symbol" : String), DVal.raw sv), (("timestamp" : String), DVal.raw tv),
    (("price" : String), DVal.dec d), (("processed_at" : String), DVal.str (now ++ "Z"))]
  let withVol ←
    match p.lookup ("volume") with
    | some vv => (pyIntOf vv).map (fun n => base ++ [(("volume" : String), DVal.int n)])
    | none => some base
  match p.lookup ("exchange") with
  | some ev => some (withVol ++ [(("exchange" : String), DVal.raw ev)])
  | none => some withVol

/-- `archive_raw_data_to_s3` (lines 104-128): derive the key, serialize the
full original payload, and `put_object`; every exception inside the `try`
is caught and turned into `False`. -/
def archive_raw_data_to_s3 (env : Env) (p : Payload) : Bool × List Effect :=
  match archiveKeyOfPayload p with
  | some key =>
    let body := jsonDumps (.jdict p)
    (env.s3PutOk S3_BUCKET key body, [.s3Put S3_BUCKET key body])
  | none => (false, [])

/-- `store_processed_data_in_dynamodb` (lines 131-162): build the item and
`put_item`; every exception inside the `try` is caught and turned into
`False`. -/
def store_processed_data_in_dynamodb (env : Env) (p : Payload) : Bool × List Effect :=
  match buildItem env.nowIso p with
  | some item => (env.dbPutOk DYNAMO_TABLE item, [.dbPut DYNAMO_TABLE item])
  | none => (false, [])

/-- The per-record body of `lambda_handler`'s loop (lines 35-67): decode
and parse the record data (failure caught → failed); a non-dict payload
raises `AttributeError` at `payload.get` on line 40, caught at the record
boundary → failed, before the validator is reached; an invalid payload →
failed; otherwise archive (result only logged) then store, the store
result deciding the tally.  Returns the record's success flag and the
effect trace. -/
def processRecord (env : Env) (data : String) : Bool × List Effect :=
  match env.decodeParse data with
  | .error _ => (false, [])
  | .ok (.jdict p) =>
    if validate_record p then
      let a := archive_raw_data_to_s3 env p
      let s := store_processed_data_in_dynamodb env p
      (s.1, .validateCall p :: .archiveCall p :: a.2 ++ .storeCall p :: s.2)
    else (false, [.validateCall p])
  | .ok _ => (false, [])

/-- The handler's tally loop: `processed_count` and `failed_count`
accumulated over the batch in delivery order. -/
def countsOf (env : Env) (records : List String) : Nat × Nat :=
  records.foldl
    (fun c r => if (processRecord env r).1 then (c.1 + 1, c.2) else (c.1, c.2 + 1))
    (0, 0)

/-- The value `lambda_handler` returns (lines 71-78). -/
structure HandlerResult where
  statusCode : Nat
  body : String
deriving DecidableEq, Repr

/-- `lambda_handler` (lines 24-78): process every record of the batch and
return the 200 response whose JSON body carries the final tally. -/
def lambda_handler (env : Env) (records : List String) : HandlerResult :=
  let c := countsOf env records
  { statusCode := 200
    body := jsonDumps (.jdict
      [(("message" : String), .jstr ("Processing complete")),
       (("processed_count" : String), .jint (c.1 : Int)),
       (("failed_count" : String), .jint (c.2 : Int))]) }

/-- The integer `int(v)` evaluates to, defaulting to 0 where it would
raise (used only under a hypothesis that it succeeds). -/
def pyIntD (v : JVal) : Int := (pyIntOf v).getD 0

/-- The `Decimal(str(price))` value, defaulting to NaN where the
conversion would raise (used only under a hypothesis that it succeeds). -/
def priceDecOf (pv : JVal) : Dec :=
  (pyDecimalOfStr (pyStr pv)).getD (Dec.nan false)

/-- Whether a string parses as an offset-free (naive) isoformat instant. -/
def isNaiveIso (s : String) : Bool :=
  match fromisoformat s with
  | some dt => dt.tzOffset.isNone
  | none => false

/-- A concrete well-formed Quote Event used by the concrete instances. -/
def samplePayload : Payload :=
  [(("symbol" : String), JVal.jstr ("AAPL")),
   (("price" : String), JVal.jstr ("199.5")),
   (("timestamp" : String), JVal.jstr ("2025-03-07T14:30:09Z")),
   (("volume" : String), JVal.jstr ("12000000")),
   (("exchange" : String), JVal.jstr ("NASDAQ"))]

/-- Environment whose decode step yields `samplePayload` and whose storage
calls all succeed. -/
def sampleEnvOk : Env :=
  ⟨fun _ => .ok (.jdict samplePayload), fun _ _ _ => true, fun _ _ => true,
   "2025-03-07T14:30:10.123456"⟩

/-- Environment whose decode step yields `samplePayload`, whose S3 client
always fails and whose DynamoDB client always succeeds. -/
def sampleEnvS3Down : Env :=
  ⟨fun _ => .ok (.jdict samplePayload), fun _ _ _ => false, fun _ _ => true,
   "2025-03-07T14:30:10.123456"⟩

/-- Environment whose decode step yields the non-object JSON value `5`
(e.g. a record whose data is the base64 of the string `5`). -/
def envNonDict : Env :=
  ⟨fun _ => .ok (.jint 5), fun _ _ _ => true, fun _ _ => true,
   "2025-03-07T14:30:10.123456"⟩

/-- Accumulator-generalised form of the tally invariant. -/
theorem tally_partition_aux (env : Env) :
    ∀ (records : List String) (a b : Nat),
    ((List.foldl
        (fun c r => if (processRecord env r).1 then (c.1 + 1, c.2) else (c.1, c.2 + 1))
        (a, b) records).1 +
      (List.foldl
        (fun c r => if (processRecord env r).1 then (c.1 + 1, c.2) else (c.1, c.2 + 1))
        (a, b) records).2) = a + b + records.length
  | [], a, b => by simp
  | r :: rs, a, b => by
    by_cases h : (processRecord env r).1 = true
    · simp only [List.foldl_cons, if_pos h]
      rw [tally_partition_aux env rs]
      simp only [List.length_cons]
      omega
    · simp only [List.foldl_cons, if_neg h]
      rw [tally_partition_aux env rs]
      simp only [List.length_cons]
      omega

/-- C10: every record contributes exactly one increment to exactly one of
the two counters, so `processed_count + failed_count` equals the number of
records in the batch (both counters being naturals, they are
non-negative), however and wherever individual records fail. -/
theorem tally_partition (env : Env) (records : List String) :
    (countsOf env records).1 + (countsOf env records).2 = records.length := by
  unfold countsOf
  simpa using tally_partition_aux env records 0 0

/-- C4: on every batch and every behaviour of the external collaborators,
`lambda_handler` returns normally with statusCode 200 and a body that is
the JSON serialization of the `Processing complete` message together with
the final tally. -/
theorem lambda_handler_always_200 (env : Env) (records : List String) :
    lambda_handler env records =
      { statusCode := 200
        body := jsonDumps (.jdict
          [(("message" : String), .jstr ("Processing complete")),
           (("processed_count" : String), .jint ((countsOf env records).1 : Int)),
           (("failed_count" : String), .jint ((countsOf env records).2 : Int))]) } := rfl

/-- C8: the archive key is a function of the payload's `symbol` and
`timestamp` fields alone — two payloads agreeing on those two lookups
(whatever their `exchange` or unknown fields) derive identical keys. -/
theorem archive_key_deterministic (p q : Payload)
    (hs : p.lookup ("symbol") = q.lookup ("symbol"))
    (ht : p.lookup ("timestamp") = q.lookup ("timestamp")) :
    archiveKeyOfPayload p = archiveKeyOfPayload q := by
  unfold archiveKeyOfPayload
  rw [hs, ht]

/-- Concrete instance of C8: adding an `exchange` field leaves the archive
key unchanged. -/
theorem archive_key_deterministic_witness :
    archiveKeyOfPayload
        [(("symbol" : String), JVal.jstr ("AAPL")),
         (("timestamp" : String), JVal.jstr ("2025-03-07T14:30:09Z")),
         (("exchange" : String), JVal.jstr ("NASDAQ"))] =
      archiveKeyOfPayload
        [(("symbol" : String), JVal.jstr ("AAPL")),
         (("timestamp" : String), JVal.jstr ("2025-03-07T14:30:09Z"))] :=
  archive_key_deterministic _ _ (by rfl) (by rfl)

/-- C7: each sink function totalises every internal failure to a boolean:
the archiver returns `true` exactly when a key could be derived and the S3
put reported success, the store writer exactly when the item could be
built and the DynamoDB put reported success; in the embedding both are
total functions, so no exception reaches the caller. -/
theorem sink_results_are_booleans (env : Env) (p : Payload) :
    ((archive_raw_data_to_s3 env p).1 = true ↔
      ∃ key, archiveKeyOfPayload p = some key ∧
        env.s3PutOk S3_BUCKET key (jsonDumps (.jdict p)) = true)
    ∧ ((store_processed_data_in_dynamodb env p).1 = true ↔
      ∃ item, buildItem env.nowIso p = some item ∧
        env.dbPutOk DYNAMO_TABLE item = true) := by
  constructor
  · unfold archive_raw_data_to_s3
    cases h : archiveKeyOfPayload p with
    | none => simp
    | some key => simp [h]
  · unfold store_processed_data_in_dynamodb
    cases h : buildItem env.nowIso p with
    | none => simp
    | some item => simp [h]

/-- C5: for a validated record the tally contribution is exactly the store
writer's result; the store writer is always invoked; and changing nothing
but the S3 behaviour (in particular making the archiver fail) leaves the
record's outcome unchanged. -/
theorem archiver_failure_is_isolated (env : Env) (data : String) (p : Payload)
    (hdec : env.decodeParse data = .ok (.jdict p))
    (hval : validate_record p = true) :
    (processRecord env data).1 = (store_processed_data_in_dynamodb env p).1
    ∧ Effect.storeCall p ∈ (processRecord env data).2
    ∧ ∀ env2 : Env, env2.decodeParse = env.decodeParse →
        env2.dbPutOk = env.dbPutOk → env2.nowIso = env.nowIso →
        (processRecord env2 data).1 = (processRecord env data).1 := by
  refine ⟨?_, ?_, ?_⟩
  · simp [processRecord, hdec, hval]
  · simp [processRecord, hdec, hval]
  · intro env2 h1 h2 h3
    simp [processRecord, hdec, hval, h1, h2, h3, store_processed_data_in_dynamodb,
      buildItem]

/-- Concrete instance of C5: with S3 failing and DynamoDB succeeding, the
record's outcome equals the store writer's result. -/
theorem archiver_failure_is_isolated_witness :
    (processRecord sampleEnvS3Down ("d")).1 =
      (store_processed_data_in_dynamodb sampleEnvS3Down samplePayload).1 :=
  (archiver_failure_is_isolated sampleEnvS3Down ("d") samplePayload (by rfl) (by rfl)).1

/-- C1 (amended): per record, a decode/parse failure, a non-object decoded
payload, and a validator rejection each count as failed with no sink
invoked (in the non-object case the record fails at the logging line
before the validator is reached); when the validator returns true the
archiver and then the store writer are invoked and the outcome is exactly
the store writer's result. -/
theorem batch_coordinator_state_machine (env : Env) (data : String) :
    (∀ e, env.decodeParse data = .error e → processRecord env data = (false, []))
    ∧ (∀ v, env.decodeParse data = .ok v → (∀ q : Payload, v ≠ .jdict q) →
        processRecord env data = (false, []))
    ∧ (∀ p : Payload, env.decodeParse data = .ok (.jdict p) →
        validate_record p = false →
        processRecord env data = (false, [.validateCall p]))
    ∧ (∀ p : Payload, env.decodeParse data = .ok (.jdict p) →
        validate_record p = true →
        processRecord env data =
          ((store_processed_data_in_dynamodb env p).1,
           .validateCall p :: .archiveCall p :: (archive_raw_data_to_s3 env p).2
             ++ .storeCall p :: (store_processed_data_in_dynamodb env p).2)) := by
  refine ⟨?_, ?_, ?_, ?_⟩
  · intro e h
    simp [processRecord, h]
  · intro v h hnd
    cases v with
    | jdict q => exact absurd rfl (hnd q)
    | jstr s => simp [processRecord, h]
    | jint n => simp [processRecord, h]
    | jnum m e => simp [processRecord, h]
    | jbool b => simp [processRecord, h]
    | jnull => simp [processRecord, h]
    | jarr l => simp [processRecord, h]
  · intro p h hval
    simp [processRecord, h, hval]
  · intro p h hval
    simp [processRecord, h, hval]

/-- The frozen C1 is refuted by a record whose data decodes to the
non-object JSON value `5` (for instance the base64 of `5`): decoding and
parsing succeed and the validator never returns false (it is never
reached — `payload.get` raises `AttributeError` first), yet the record is
counted failed and no sink is invoked, where the claim's remaining branch
promises sink invocations. -/
theorem batch_coordinator_state_machine_cex :
    envNonDict.decodeParse ("d") = .ok (.jint 5)
    ∧ processRecord envNonDict ("d") = (false, []) :=
  ⟨rfl, rfl⟩

/-- Concrete instance of C1's success branch. -/
theorem batch_coordinator_state_machine_witness :
    processRecord sampleEnvOk ("d") =
      ((store_processed_data_in_dynamodb sampleEnvOk samplePayload).1,
       Effect.validateCall samplePayload :: Effect.archiveCall samplePayload ::
         (archive_raw_data_to_s3 sampleEnvOk samplePayload).2
         ++ Effect.storeCall samplePayload ::
           (store_processed_data_in_dynamodb sampleEnvOk samplePayload).2) :=
  (batch_coordinator_state_machine sampleEnvOk ("d")).2.2.2 samplePayload (by rfl) (by rfl)

/-- C2 (amended): for every payload whose (Z-normalised) timestamp string
parses, the archive key is built from the parsed datetime's own calendar
fields — the UTC offset, if any, is ignored rather than applied. -/
theorem archive_key_from_parsed_fields (p : Payload) (ts : String) (sym : JVal)
    (dt : PyDateTime)
    (hts : p.lookup ("timestamp") = some (.jstr ts))
    (hsym : p.lookup ("symbol") = some sym)
    (hparse : fromisoformat (normalizeTs ts) = some dt) :
    archiveKeyOfPayload p = some (mkArchiveKey (pyStr sym) dt) := by
  simp [archiveKeyOfPayload, hts, hsym, archiveKeyStr, hparse]

/-- The frozen C2 is refuted at the timestamp `2024-01-01T10:00:00+05:00`:
the parsed fields carry hour 10 with offset +05:00, whose UTC conversion
is hour 5, but the derived key uses hour 10 — the key built from the
UTC-converted fields differs from the key the code derives. -/
theorem archive_key_not_utc_cex :
    fromisoformat (normalizeTs ("2024-01-01T10:00:00+05:00"))
        = some ⟨2024, 1, 1, 10, 0, 0, 0, some 18000⟩
    ∧ toUTC ⟨2024, 1, 1, 10, 0, 0, 0, some 18000⟩ = ⟨2024, 1, 1, 5, 0, 0, 0, some 0⟩
    ∧ archiveKeyStr ("A") ("2024-01-01T10:00:00+05:00")
        = some ("raw/2024/01/01/10/kinesis-records-A-20240101100000.json")
    ∧ mkArchiveKey ("A") (toUTC ⟨2024, 1, 1, 10, 0, 0, 0, some 18000⟩)
        ≠ mkArchiveKey ("A") ⟨2024, 1, 1, 10, 0, 0, 0, some 18000⟩ :=
  ⟨rfl, rfl, rfl, by decide⟩

/-- Concrete instance of C2 (amended) on a UTC timestamp. -/
theorem archive_key_from_parsed_fields_witness :
    archiveKeyOfPayload samplePayload =
      some (mkArchiveKey (pyStr (JVal.jstr ("AAPL"))) ⟨2025, 3, 7, 14, 30, 9, 0, some 0⟩) :=
  archive_key_from_parsed_fields samplePayload ("2025-03-07T14:30:09Z")
    (JVal.jstr ("AAPL")) ⟨2025, 3, 7, 14, 30, 9, 0, some 0⟩ (by rfl) (by rfl) (by rfl)

/-- `str.replace('Z', '+00:00')` on a string that ends in `Z` and has no
other `Z` rewrites exactly the suffix. -/
theorem replaceZ_append_of_not_mem :
    ∀ (l : List Char), ('Z' ∈ l → False) →
      replaceZ (l ++ ['Z']) = l ++ ['+', '0', '0', ':', '0', '0']
  | [], _ => rfl
  | c :: r, h => by
    have hc : c ≠ 'Z' := fun hc => h (hc ▸ List.mem_cons_self c r)
    simp only [List.cons_append, replaceZ, if_neg hc, List.append_eq]
    rw [replaceZ_append_of_not_mem r (fun hm => h (List.mem_cons_of_mem c hm))]

/-- The archiver's normalisation of a Z-suffixed timestamp whose stem
contains no other `Z` is exactly the explicit-offset spelling. -/
theorem normalizeTs_z_suffix (pre : String) (hz : ('Z' ∈ pre.data) → False) :
    normalizeTs (pre ++ "Z") = pre ++ "+00:00" := by
  have h1 : (pre ++ "Z").data = pre.data ++ ['Z'] := rfl
  have h2 : (pre ++ "+00:00").data = pre.data ++ ['+', '0', '0', ':', '0', '0'] := rfl
  show String.mk (replaceZ (pre ++ "Z").data) = pre ++ "+00:00"
  rw [h1, replaceZ_append_of_not_mem pre.data hz, ← h2]

/-- C9 (amended): for a timestamp `pre ++ "Z"` whose stem `pre` is a valid
offset-free isoformat instant containing no `Z` of its own, the archiver's
normalisation produces exactly `pre ++ "+00:00"`, so both spellings parse
to the same calendar fields and derive the same archive key. -/
theorem z_suffix_offset_equivalence (pre sym : String)
    (_hiso : isNaiveIso pre = true) (hz : ('Z' ∈ pre.data) → False) :
    fromisoformat (normalizeTs (pre ++ "Z")) = fromisoformat (pre ++ "+00:00")
    ∧ archiveKeyStr sym (pre ++ "Z")
        = (fromisoformat (pre ++ "+00:00")).map (mkArchiveKey sym) := by
  rw [archiveKeyStr, normalizeTs_z_suffix pre hz]
  exact ⟨rfl, rfl⟩

/-- The frozen C9 is refuted at `t = "2024-01-01Z10:00:00Z"`: its stem
`2024-01-01Z10:00:00` is a valid offset-free instant (`fromisoformat`
accepts ANY single character — here `Z` — as the date/time separator), but
`replace('Z', '+00:00')` also rewrites that interior `Z`, so the
normalised string no longer parses, while the explicit-offset spelling
parses fine — the two forms do not yield the same fields. -/
theorem z_suffix_offset_equivalence_cex :
    isNaiveIso ("2024-01-01Z10:00:00") = true
    ∧ fromisoformat (normalizeTs ("2024-01-01Z10:00:00Z")) = none
    ∧ fromisoformat ("2024-01-01Z10:00:00" ++ "+00:00")
        = some ⟨2024, 1, 1, 10, 0, 0, 0, some 0⟩
    ∧ fromisoformat (normalizeTs ("2024-01-01Z10:00:00Z"))
        ≠ fromisoformat ("2024-01-01Z10:00:00" ++ "+00:00") :=
  ⟨rfl, rfl, rfl, by decide⟩

/-- Concrete instance of C9 (amended) with the usual `T` separator. -/
theorem z_suffix_offset_equivalence_witness :
    fromisoformat (normalizeTs ("2024-01-01T10:00:00" ++ "Z"))
      = fromisoformat ("2024-01-01T10:00:00" ++ "+00:00") :=
  (z_suffix_offset_equivalence ("2024-01-01T10:00:00") ("A") (by rfl) (by decide)).1

/-- C3: `validate_record` returns false exactly when `symbol`, `price` or
`timestamp` is absent, when `price` cannot be parsed as a real number
(`float`), or when `volume` is present and cannot be parsed as an integer
(`int`); it returns true in every other case — `exchange` and unknown
fields, present or absent, never matter.  As a pure boolean function of
the payload it mutates nothing. -/
theorem validate_record_iff (p : Payload) :
    validate_record p = false ↔
      p.lookup ("symbol") = none ∨ p.lookup ("price") = none ∨
      p.lookup ("timestamp") = none ∨
      (∃ pv, p.lookup ("price") = some pv ∧ canFloat pv = false) ∨
      (∃ vv, p.lookup ("volume") = some vv ∧ canInt vv = false) := by
  unfold validate_record
  rcases hs : p.lookup ("symbol") with _ | sv
  · simp [hs]
  · rcases hp : p.lookup ("price") with _ | pv
    · simp [hp]
    · rcases ht : p.lookup ("timestamp") with _ | tv
      · simp [ht]
      · rcases hv : p.lookup ("volume") with _ | vv <;>
          rcases hcf : canFloat pv <;> simp [hs, hp, ht, hv, hcf]

/-- Every character `digitChar` produces is one of the ten digits. -/
theorem digitChar_mem (k : Nat) :
    digitChar k ∈ (['0', '1', '2', '3', '4', '5', '6', '7', '8', '9'] : List Char) := by
  unfold digitChar
  split <;> decide

/-- Characters accumulated by `natDigitsCore` stay within the digits. -/
theorem natDigitsCore_mem :
    ∀ (f n : Nat) (acc : List Char),
      (∀ x ∈ acc, x ∈ (['0', '1', '2', '3', '4', '5', '6', '7', '8', '9'] : List Char)) →
      ∀ c ∈ natDigitsCore f n acc,
        c ∈ (['0', '1', '2', '3', '4', '5', '6', '7', '8', '9'] : List Char) := by
  intro f
  induction f with
  | zero => intro n acc hacc c hc; exact hacc c hc
  | succ f ih =>
    intro n acc hacc c hc
    simp only [natDigitsCore] at hc
    split at hc
    · rcases List.mem_cons.mp hc with h | h
      · exact h ▸ digitChar_mem _
      · exact hacc c h
    · refine ih (n / 10) _ ?_ c hc
      intro x hx
      rcases List.mem_cons.mp hx with h | h
      · exact h ▸ digitChar_mem _
      · exact hacc x h

/-- The digits of a natural number are digits. -/
theorem natDigits_mem (n : Nat) :
    ∀ c ∈ natDigits n, c ∈ (['0', '1', '2', '3', '4', '5', '6', '7', '8', '9'] : List Char) :=
  natDigitsCore_mem (n + 1) n [] (by intro x hx; cases hx)

/-- `natDigitsCore` never returns an empty list once given fuel or a
non-empty accumulator. -/
theorem natDigitsCore_ne_nil :
    ∀ (f n : Nat) (acc : List Char), (acc ≠ [] ∨ f ≠ 0) → natDigitsCore f n acc ≠ [] := by
  intro f
  induction f with
  | zero =>
    intro n acc h
    rcases h with h | h
    · exact h
    · exact absurd rfl h
  | succ f ih =>
    intro n acc _
    simp only [natDigitsCore]
    split
    · exact List.cons_ne_nil _ _
    · exact ih (n / 10) _ (Or.inl (List.cons_ne_nil _ _))

/-- `natDigits` is never empty. -/
theorem natDigits_ne_nil (n : Nat) : natDigits n ≠ [] :=
  natDigitsCore_ne_nil (n + 1) n [] (Or.inr (Nat.succ_ne_zero n))

/-- `dropWhile` is the identity when no element satisfies the predicate. -/
theorem dropWhile_eq_self_of (p : Char → Bool) (l : List Char)
    (h : ∀ c ∈ l, p c = false) : l.dropWhile p = l := by
  cases l with
  | nil => rfl
  | cons c r => simp [List.dropWhile_cons, h c (List.mem_cons_self c r)]

/-- `stripWs` is the identity on lists without whitespace characters. -/
theorem stripWs_eq_self (l : List Char) (h : ∀ c ∈ l, isSpaceChar c = false) :
    stripWs l = l := by
  unfold stripWs
  rw [dropWhile_eq_self_of _ l h,
    dropWhile_eq_self_of _ l.reverse (fun c hc => h c (List.mem_reverse.mp hc)),
    List.reverse_reverse]

/-- `filter noU` is the identity on lists without underscores. -/
theorem filter_noU_eq_self (l : List Char) (h : ∀ c ∈ l, noU c = true) :
    l.filter noU = l :=
  List.filter_eq_self.mpr h

/-- `breakFirst` finds nothing when no element satisfies the predicate. -/
theorem breakFirst_eq_self (p : Char → Bool) :
    ∀ (l : List Char), (∀ c ∈ l, p c = false) → breakFirst p l = (l, none)
  | [], _ => rfl
  | c :: r, h => by
    simp only [breakFirst, h c (List.mem_cons_self c r), Bool.false_eq_true, if_false]
    rw [breakFirst_eq_self p r (fun x hx => h x (List.mem_cons_of_mem c hx))]

/-- `breakFirst` splits exactly at an explicit first occurrence. -/
theorem breakFirst_append (p : Char → Bool) :
    ∀ (a : List Char) (x : Char) (b : List Char), (∀ c ∈ a, p c = false) → p x = true →
      breakFirst p (a ++ x :: b) = (a, some b)
  | [], x, b, _, hx => by simp [breakFirst, hx]
  | c :: a, x, b, h, hx => by
    simp only [List.cons_append, breakFirst, h c (List.mem_cons_self c a),
      Bool.false_eq_true, if_false, List.append_eq]
    rw [breakFirst_append p a x b (fun y hy => h y (List.mem_cons_of_mem c hy)) hx]

/-- A digit is not an underscore. -/
theorem noU_of_isDigit (c : Char) (h : c.isDigit = true) : noU c = true := by
  by_cases hc : c = '_'
  · subst hc; exact absurd h (by decide)
  · simp [noU, hc]


/-- After the first digit, dropping the underscores of a valid
underscored-digit tail leaves only digits. -/
theorem digitsUAux_filter :
    ∀ (l : List Char), digitsUAux l = true →
      ((l.filter noU).all (fun c => c.isDigit)) = true
  | [], _ => rfl
  | c :: rest, h => by
    by_cases hc : c = '_'
    · subst hc
      unfold digitsUAux at h
      rw [if_pos rfl] at h
      cases rest with
      | nil => exact absurd h (by decide)
      | cons d r =>
        rw [Bool.and_eq_true] at h
        obtain ⟨hd, hr⟩ := h
        have hf : ((('_' : Char) :: d :: r).filter noU) = d :: r.filter noU := by
          simp [List.filter_cons, noU_of_isDigit d hd, show noU '_' = false by decide]
        rw [hf]
        simp only [List.all_cons, hd, Bool.true_and]
        exact digitsUAux_filter r hr
    · unfold digitsUAux at h
      rw [if_neg hc, Bool.and_eq_true] at h
      obtain ⟨hd, hr⟩ := h
      have hf : ((c :: rest).filter noU) = c :: rest.filter noU := by
        simp [List.filter_cons, noU, hc]
      rw [hf]
      simp only [List.all_cons, hd, Bool.true_and]
      exact digitsUAux_filter rest hr

/-- Dropping the underscores of a valid underscored-digit run leaves a
non-empty plain digit run. -/
theorem digitsU_filter (l : List Char) (h : digitsU l = true) :
    digitsPlain (l.filter noU) = true := by
  cases l with
  | nil => exact absurd h (by decide)
  | cons c r =>
    unfold digitsU at h
    rw [Bool.and_eq_true] at h
    obtain ⟨hd, hr⟩ := h
    have hfc : ((c :: r).filter noU) = c :: r.filter noU := by
      simp [List.filter_cons, noU_of_isDigit c hd]
    rw [hfc]
    simp only [digitsPlain, List.isEmpty_cons, Bool.not_false, List.all_cons, hd,
      Bool.true_and]
    exact digitsUAux_filter r hr

/-- `breakFirst` commutes with dropping underscores whenever the split
predicate ignores underscores. -/
theorem breakFirst_filter (p : Char → Bool) (hp : p '_' = false) :
    ∀ (l : List Char),
      breakFirst p (l.filter noU) =
        ((breakFirst p l).1.filter noU,
         (breakFirst p l).2.map (fun t => t.filter noU))
  | [] => by simp [breakFirst]
  | c :: r => by
    by_cases hc : c = '_'
    · subst hc
      have h1 : ((('_' : Char) :: r).filter noU) = r.filter noU := by
        simp [List.filter_cons, noU]
      have h2 : breakFirst p ('_' :: r) =
          ('_' :: (breakFirst p r).1, (breakFirst p r).2) := by
        simp [breakFirst, hp]
      rw [h1, h2, breakFirst_filter p hp r]
      simp [List.filter_cons, noU]
    · have h1 : ((c :: r).filter noU) = c :: r.filter noU := by
        simp [List.filter_cons, noU, hc]
      by_cases hpc : p c = true
      · rw [h1]
        simp [breakFirst, hpc]
      · have hb : breakFirst p (c :: r) =
            (c :: (breakFirst p r).1, (breakFirst p r).2) := by
          simp [breakFirst, hpc]
        rw [h1, hb]
        simp only [breakFirst, hpc, Bool.false_eq_true, if_false]
        rw [breakFirst_filter p hp r]
        simp [List.filter_cons, noU, hc]

/-- `breakFirst` steps over a non-matching head. -/
theorem breakFirst_cons_head (p : Char → Bool) (c : Char) (r : List Char)
    (hf : p c = false) :
    breakFirst p (c :: r) = (c :: (breakFirst p r).1, (breakFirst p r).2) := by
  simp [breakFirst, hf]

/-- The float grammar rejects a leading underscore. -/
theorem floatNumericU_underscore (r : List Char) : floatNumericU ('_' :: r) = false := by
  unfold floatNumericU
  rw [breakFirst_cons_head eMark '_' r (by decide)]
  simp only
  rw [breakFirst_cons_head dotMark '_' (breakFirst eMark r).1 (by decide)]
  rcases h2 : (breakFirst dotMark (breakFirst eMark r).1).2 with _ | f <;>
    simp [digitsU]

/-- Sign stripping commutes with underscore removal when the list does not
start with an underscore. -/
theorem dropSign_filter_of_not_underscore (l : List Char)
    (h : ∀ r, l ≠ '_' :: r) : dropSign (l.filter noU) = (dropSign l).filter noU := by
  cases l with
  | nil => rfl
  | cons c r =>
    by_cases hc : c = '_'
    · exact absurd (hc ▸ rfl) (h r)
    · have h2 : ((c :: r).filter noU) = c :: r.filter noU := by
        simp [List.filter_cons, noU, hc]
      by_cases hs : (c = '+' || c = '-') = true
      · have h1 : dropSign (c :: r) = r := by simp [dropSign, hs]
        rw [h1, h2]
        simp [dropSign, hs]
      · have h1 : dropSign (c :: r) = c :: r := by simp [dropSign, hs]
        rw [h1, h2]
        simp [dropSign, hs, List.filter_cons, noU, hc]

/-- A keyword match leaves no room for underscores. -/
theorem lowerIs_no_underscore (l : List Char) (w : String) (h : lowerIs l w = true)
    (hw : ('_' ∈ w.data) → False) : ('_' ∈ l) → False := by
  intro hm
  unfold lowerIs at h
  have heq : l.map Char.toLower = w.data := eq_of_beq h
  have : ('_' : Char) ∈ l.map Char.toLower := by
    have := List.mem_map_of_mem Char.toLower hm
    simpa using this
  exact hw (heq ▸ this)

/-- A plain digit run is all digits. -/
theorem digitsPlain_all (l : List Char) (h : digitsPlain l = true) :
    l.all (fun c => c.isDigit) = true := by
  unfold digitsPlain at h
  rw [Bool.and_eq_true] at h
  exact h.2

/-- Membership of a non-sign character survives sign stripping. -/
theorem mem_dropSign_of_mem (l : List Char) (c : Char) (hc1 : c ≠ '+') (hc2 : c ≠ '-')
    (h : c ∈ l) : c ∈ dropSign l := by
  cases l with
  | nil => cases h
  | cons a r =>
    by_cases hs : (a = '+' || a = '-') = true
    · rw [show dropSign (a :: r) = r from by simp [dropSign, hs]]
      rcases List.mem_cons.mp h with h1 | h1
      · simp only [Bool.or_eq_true, decide_eq_true_eq] at hs
        rcases hs with h2 | h2
        · exact absurd (h1.trans h2) hc1
        · exact absurd (h1.trans h2) hc2
      · exact h1
    · rw [show dropSign (a :: r) = a :: r from by simp [dropSign, hs]]
      exact h

/-- A list without underscores satisfies `noU` everywhere. -/
theorem noU_all_of_no_underscore (l : List Char) (h : ('_' ∈ l) → False) :
    ∀ c ∈ l, noU c = true := by
  intro c hc
  by_cases hcu : c = '_'
  · exact absurd (hcu ▸ hc) h
  · simp [noU, hcu]

/-- A valid float exponent part stays a valid decimal exponent part after
underscore removal. -/
theorem exp_filter_ok (ex : List Char) (h : digitsU (dropSign ex) = true) :
    digitsPlain (dropSign (ex.filter noU)) = true := by
  have hne : ∀ r, ex ≠ '_' :: r := by
    intro r hr
    rw [hr] at h
    exact absurd h (by simp [dropSign, digitsU])
  rw [dropSign_filter_of_not_underscore ex hne]
  exact digitsU_filter _ h

/-- A valid float mantissa stays a valid decimal mantissa after underscore
removal. -/
theorem mant_filter_ok (m : List Char)
    (hm : (match (breakFirst dotMark m).2 with
           | none => digitsU (breakFirst dotMark m).1
           | some f => (digitsU (breakFirst dotMark m).1 && (f.isEmpty || digitsU f))
               || ((breakFirst dotMark m).1.isEmpty && digitsU f)) = true) :
    ((digitsPlain (breakFirst dotMark (m.filter noU)).1 &&
        ((breakFirst dotMark (m.filter noU)).2.getD []).all (fun c => c.isDigit)) ||
      ((breakFirst dotMark (m.filter noU)).1.isEmpty &&
        (breakFirst dotMark (m.filter noU)).2.isSome &&
        digitsPlain ((breakFirst dotMark (m.filter noU)).2.getD []))) = true := by
  rw [breakFirst_filter dotMark (by decide) m]
  rcases hfp : (breakFirst dotMark m).2 with _ | f
  · rw [hfp] at hm
    simp only [hfp, Option.map_none', Option.getD_none, List.all_nil, Option.isSome_none]
    simp [digitsU_filter _ hm]
  · rw [hfp] at hm
    simp only [hfp, Option.map_some', Option.getD_some, Option.isSome_some]
    rw [Bool.or_eq_true] at hm
    rcases hm with hm | hm
    · rw [Bool.and_eq_true] at hm
      obtain ⟨hip, hf⟩ := hm
      rw [Bool.or_eq_true] at hf
      have h1 : digitsPlain ((breakFirst dotMark m).1.filter noU) = true :=
        digitsU_filter _ hip
      rcases hf with hf | hf
      · have : f = [] := by
          cases f with
          | nil => rfl
          | cons a b => exact absurd hf (by simp)
        subst this
        simp [h1]
      · have h2 := digitsU_filter _ hf
        simp [h1, digitsPlain_all _ h2]
    · rw [Bool.and_eq_true] at hm
      obtain ⟨hip, hf⟩ := hm
      have hipnil : (breakFirst dotMark m).1 = [] := by
        cases hi : (breakFirst dotMark m).1 with
        | nil => rfl
        | cons a b => rw [hi] at hip; exact absurd hip (by simp)
      rw [hipnil]
      simp [digitsU_filter _ hf]

/-- Every string accepted by `float` is accepted by `Decimal`: underscore
removal turns the underscored float grammar into the plain decimal grammar,
and the special values coincide. -/
theorem float_dec_chars (l0 : List Char) (h : pyFloatChars l0 = true) :
    (pyDecimalChars l0).isSome = true := by
  unfold pyFloatChars at h
  dsimp only at h
  rw [Bool.or_eq_true] at h
  unfold pyDecimalChars
  dsimp only
  rcases h with hA | hB
  · unfold floatSpecial at hA
    rw [Bool.or_eq_true, Bool.or_eq_true] at hA
    have hstep : ∀ w : String, lowerIs (dropSign (stripWs l0)) w = true →
        (('_' ∈ w.data) → False) →
        List.filter noU (stripWs l0) = stripWs l0 ∧
        List.map Char.toLower (dropSign (stripWs l0)) = w.data := by
      intro w hw hwu
      have heq : (dropSign (stripWs l0)).map Char.toLower = w.data := eq_of_beq hw
      have hbody : ('_' ∈ dropSign (stripWs l0)) → False :=
        lowerIs_no_underscore _ w hw hwu
      have hfull : ('_' ∈ stripWs l0) → False := fun hm =>
        hbody (mem_dropSign_of_mem _ '_' (by decide) (by decide) hm)
      exact ⟨filter_noU_eq_self _ (noU_all_of_no_underscore _ hfull), heq⟩
    rcases hA with (h1 | h1) | h1
    · obtain ⟨hfil, heq⟩ := hstep ("inf") h1 (by decide)
      rw [hfil, heq, if_pos (by decide)]
      rfl
    · obtain ⟨hfil, heq⟩ := hstep ("infinity") h1 (by decide)
      rw [hfil, heq, if_pos (by decide)]
      rfl
    · obtain ⟨hfil, heq⟩ := hstep ("nan") h1 (by decide)
      rw [hfil, heq, if_neg (by decide), if_pos (by decide)]
      rfl
  · have hhd : ∀ r, stripWs l0 ≠ '_' :: r := by
      intro r hr
      rw [hr] at hB
      rw [show dropSign ('_' :: r) = '_' :: r from rfl] at hB
      exact absurd hB (by simp [floatNumericU_underscore])
    have hds : dropSign (List.filter noU (stripWs l0)) =
        List.filter noU (dropSign (stripWs l0)) :=
      dropSign_filter_of_not_underscore _ hhd
    rw [hds, breakFirst_filter eMark (by decide) (dropSign (stripWs l0))]
    dsimp only
    unfold floatNumericU at hB
    dsimp only at hB
    rw [Bool.and_eq_true] at hB
    obtain ⟨hmant, hexp⟩ := hB
    split
    · rfl
    · split
      · rfl
      · split
        · rfl
        · rcases hex : (breakFirst eMark (dropSign (stripWs l0))).2 with _ | ex
          · simp only [hex, Option.map_none'] at hexp ⊢
            rw [if_pos (mant_filter_ok _ hmant)]
            rfl
          · simp only [hex, Option.map_some'] at hexp ⊢
            rw [if_pos (by rw [mant_filter_ok _ hmant, exp_filter_ok ex hexp]; rfl)]
            rfl

/-- The ten digit characters are digits and are none of the separator or
marker characters. -/
theorem digit_mem_props (c : Char)
    (h : c ∈ (['0', '1', '2', '3', '4', '5', '6', '7', '8', '9'] : List Char)) :
    c.isDigit = true ∧ isSpaceChar c = false ∧ noU c = true ∧ eMark c = false ∧
      dotMark c = false ∧ (c = '+' || c = '-') = false := by
  fin_cases h <;> exact ⟨rfl, rfl, rfl, rfl, rfl, rfl⟩

/-- A non-empty list of digit characters is a plain digit run. -/
theorem digitsPlain_of_mem (ds : List Char)
    (hmem : ∀ c ∈ ds, c ∈ (['0', '1', '2', '3', '4', '5', '6', '7', '8', '9'] : List Char))
    (hne : ds ≠ []) : digitsPlain ds = true := by
  unfold digitsPlain
  rw [Bool.and_eq_true]
  constructor
  · cases ds with
    | nil => exact absurd rfl hne
    | cons d r => rfl
  · rw [List.all_eq_true]
    exact fun c hc => (digit_mem_props c (hmem c hc)).1

/-- `Decimal` accepts an optionally signed non-empty digit run. -/
theorem pyDecimalChars_digits (sgn ds : List Char)
    (hs : sgn = [] ∨ sgn = ['-'] ∨ sgn = ['+'])
    (hmem : ∀ c ∈ ds, c ∈ (['0', '1', '2', '3', '4', '5', '6', '7', '8', '9'] : List Char))
    (hne : ds ≠ []) :
    (pyDecimalChars (sgn ++ ds)).isSome = true := by
  unfold pyDecimalChars
  dsimp only
  have hsp : ∀ c ∈ sgn ++ ds, isSpaceChar c = false := by
    intro c hc
    rcases List.mem_append.mp hc with h1 | h1
    · rcases hs with h2 | h2 | h2
      · subst h2; cases h1
      · subst h2; rw [List.mem_singleton] at h1; subst h1; decide
      · subst h2; rw [List.mem_singleton] at h1; subst h1; decide
    · exact (digit_mem_props c (hmem c h1)).2.1
  rw [stripWs_eq_self _ hsp]
  have hnu : ∀ c ∈ sgn ++ ds, noU c = true := by
    intro c hc
    rcases List.mem_append.mp hc with h1 | h1
    · rcases hs with h2 | h2 | h2
      · subst h2; cases h1
      · subst h2; rw [List.mem_singleton] at h1; subst h1; decide
      · subst h2; rw [List.mem_singleton] at h1; subst h1; decide
    · exact (digit_mem_props c (hmem c h1)).2.2.1
  rw [filter_noU_eq_self _ hnu]
  have hdrop : dropSign (sgn ++ ds) = ds := by
    rcases hs with h2 | h2 | h2
    · subst h2
      cases ds with
      | nil => exact absurd rfl hne
      | cons d r =>
        have hd := (digit_mem_props d (hmem d (List.mem_cons_self d r))).2.2.2.2.2
        simp only [List.nil_append]
        simp [dropSign, hd]
    · subst h2; rfl
    · subst h2; rfl
  rw [hdrop]
  have hbe : breakFirst eMark ds = (ds, none) :=
    breakFirst_eq_self _ _ (fun c hc => (digit_mem_props c (hmem c hc)).2.2.2.1)
  have hbd : breakFirst dotMark ds = (ds, none) :=
    breakFirst_eq_self _ _ (fun c hc => (digit_mem_props c (hmem c hc)).2.2.2.2.1)
  split
  · rfl
  · split
    · rfl
    · split
      · rfl
      · rw [hbe]
        dsimp only
        rw [hbd]
        dsimp only
        rw [if_pos ?hcond]
        · rfl
        case hcond =>
          simp only [Option.getD_none, List.all_nil, Bool.and_true, Option.isSome_none,
            Bool.and_false, Bool.false_and, Bool.or_false]
          exact digitsPlain_of_mem ds hmem hne

/-- `Decimal` accepts an optionally signed digit run with a decimal point. -/
theorem pyDecimalChars_point (sgn ip f : List Char)
    (hs : sgn = [] ∨ sgn = ['-'] ∨ sgn = ['+'])
    (hip : ∀ c ∈ ip, c ∈ (['0', '1', '2', '3', '4', '5', '6', '7', '8', '9'] : List Char))
    (hf : ∀ c ∈ f, c ∈ (['0', '1', '2', '3', '4', '5', '6', '7', '8', '9'] : List Char))
    (hne : ip ≠ []) :
    (pyDecimalChars (sgn ++ ip ++ '.' :: f)).isSome = true := by
  unfold pyDecimalChars
  dsimp only
  have hsgn : ∀ c ∈ sgn, isSpaceChar c = false ∧ noU c = true := by
    intro c hc
    rcases hs with h2 | h2 | h2 <;> subst h2
    · cases hc
    · rw [List.mem_singleton] at hc; subst hc; exact ⟨rfl, rfl⟩
    · rw [List.mem_singleton] at hc; subst hc; exact ⟨rfl, rfl⟩
  have hall : ∀ c ∈ sgn ++ ip ++ '.' :: f, isSpaceChar c = false ∧ noU c = true := by
    intro c hc
    rcases List.mem_append.mp hc with h1 | h1
    · rcases List.mem_append.mp h1 with h2 | h2
      · exact hsgn c h2
      · have hp := digit_mem_props c (hip c h2)
        exact ⟨hp.2.1, hp.2.2.1⟩
    · rcases List.mem_cons.mp h1 with h2 | h2
      · subst h2; exact ⟨rfl, rfl⟩
      · have hp := digit_mem_props c (hf c h2)
        exact ⟨hp.2.1, hp.2.2.1⟩
  rw [stripWs_eq_self _ (fun c hc => (hall c hc).1)]
  rw [filter_noU_eq_self _ (fun c hc => (hall c hc).2)]
  have hdrop : dropSign (sgn ++ ip ++ '.' :: f) = ip ++ '.' :: f := by
    rcases hs with h2 | h2 | h2 <;> subst h2
    · cases ip with
      | nil => exact absurd rfl hne
      | cons d r =>
        have hd := (digit_mem_props d (hip d (List.mem_cons_self d r))).2.2.2.2.2
        show dropSign (d :: (r ++ '.' :: f)) = d :: (r ++ '.' :: f)
        simp [dropSign, hd]
    · rfl
    · rfl
  rw [hdrop]
  have hbe : breakFirst eMark (ip ++ '.' :: f) = (ip ++ '.' :: f, none) :=
    breakFirst_eq_self _ _ (by
      intro c hc
      rcases List.mem_append.mp hc with h1 | h1
      · exact (digit_mem_props c (hip c h1)).2.2.2.1
      · rcases List.mem_cons.mp h1 with h2 | h2
        · subst h2; rfl
        · exact (digit_mem_props c (hf c h2)).2.2.2.1)
  have hbd : breakFirst dotMark (ip ++ '.' :: f) = (ip, some f) :=
    breakFirst_append _ ip '.' f
      (fun c hc => (digit_mem_props c (hip c hc)).2.2.2.2.1) rfl
  split
  · rfl
  · split
    · rfl
    · split
      · rfl
      · rw [hbe]
        dsimp only
        rw [hbd]
        dsimp only
        rw [if_pos ?hcond]
        · rfl
        case hcond =>
          simp only [Option.getD_some, Option.isSome_some]
          rw [digitsPlain_of_mem ip hip hne]
          have hfall : f.all (fun c => c.isDigit) = true :=
            List.all_eq_true.mpr (fun c hc => (digit_mem_props c (hf c hc)).1)
          rw [hfall]
          rfl

/-- `Decimal(str(i))` succeeds for every Python int `i`. -/
theorem pyDecimal_intRender (i : Int) : (pyDecimalOfStr (intRenderS i)).isSome = true := by
  unfold pyDecimalOfStr intRenderS
  by_cases hi : i < 0
  · rw [if_pos hi]
    have hdata : ("-" ++ natRenderS i.natAbs).data = ['-'] ++ natDigits i.natAbs := rfl
    rw [hdata]
    exact pyDecimalChars_digits ['-'] _ (Or.inr (Or.inl rfl)) (natDigits_mem _)
      (natDigits_ne_nil _)
  · rw [if_neg hi]
    have hdata : (natRenderS i.natAbs).data = [] ++ natDigits i.natAbs := rfl
    rw [hdata]
    exact pyDecimalChars_digits [] _ (Or.inl rfl) (natDigits_mem _) (natDigits_ne_nil _)

/-- The sign part of a float rendering is empty or a minus. -/
theorem numRender_sign (m : Int) :
    (if m < 0 then (['-'] : List Char) else []) = [] ∨
    (if m < 0 then (['-'] : List Char) else []) = ['-'] ∨
    (if m < 0 then (['-'] : List Char) else []) = ['+'] := by
  by_cases hm : m < 0
  · rw [if_pos hm]; exact Or.inr (Or.inl rfl)
  · rw [if_neg hm]; exact Or.inl rfl

/-- `Decimal(str(f))` succeeds for every Python float `f`. -/
theorem pyDecimal_numRender (m : Int) (e : Nat) :
    (pyDecimalOfStr (⟨numRender m e⟩ : String)).isSome = true := by
  unfold pyDecimalOfStr
  have hdata : ((⟨numRender m e⟩ : String)).data = numRender m e := rfl
  rw [hdata]
  unfold numRender
  by_cases he : e = 0
  · rw [if_pos he]
    exact pyDecimalChars_point _ _ ['0'] (numRender_sign m) (natDigits_mem _)
      (by
        intro c hc
        rw [List.mem_singleton] at hc
        subst hc
        decide)
      (natDigits_ne_nil _)
  · rw [if_neg he]
    apply pyDecimalChars_point _ _ _ (numRender_sign m)
    · intro c hc
      have hc2 := (List.take_sublist _ _).subset hc
      rcases List.mem_append.mp hc2 with h1 | h1
      · rw [List.eq_of_mem_replicate h1]; decide
      · exact natDigits_mem _ c h1
    · intro c hc
      have hc2 := (List.drop_sublist _ _).subset hc
      rcases List.mem_append.mp hc2 with h1 | h1
      · rw [List.eq_of_mem_replicate h1]; decide
      · exact natDigits_mem _ c h1
    · apply List.ne_nil_of_length_pos
      rw [List.length_take]
      have hlen : e + 1 ≤ (List.replicate (e + 1 - (natDigits m.natAbs).length) '0' ++
          natDigits m.natAbs).length := by
        rw [List.length_append, List.length_replicate]
        omega
      omega

/-- An option known to be `some` equals `some` of its default-read. -/
theorem opt_eq_some_getD {α : Type} (o : Option α) (d0 : α) (h : o.isSome = true) :
    o = some (o.getD d0) := by
  cases o with
  | none => exact absurd h (by simp)
  | some a => rfl

/-- For every non-boolean payload value accepted by `float`,
`Decimal(str(value))` succeeds — the boolean values are the only ones that
validate yet break the conversion. -/
theorem canFloat_decimal (pv : JVal) (hf : canFloat pv = true)
    (hb : ∀ b, pv ≠ .jbool b) :
    (pyDecimalOfStr (pyStr pv)).isSome = true := by
  cases pv with
  | jstr s => exact float_dec_chars s.data hf
  | jint n => exact pyDecimal_intRender n
  | jnum m e => exact pyDecimal_numRender m e
  | jbool b => exact absurd rfl (hb b)
  | jnull => exact absurd hf (by simp [canFloat])
  | jarr l => exact absurd hf (by simp [canFloat])
  | jdict d => exact absurd hf (by simp [canFloat])

/-- A value accepted by `int` converts to exactly `pyIntD` of it. -/
theorem pyIntOf_eq_some_of_canInt (v : JVal) (h : canInt v = true) :
    pyIntOf v = some (pyIntD v) := by
  unfold canInt at h
  unfold pyIntD
  cases ho : pyIntOf v with
  | none => rw [ho] at h; exact absurd h (by simp)
  | some n => rfl

/-- C6 (amended): for every validated payload whose `price` is not a
boolean, the item built for DynamoDB exists and contains exactly `symbol`
(as-is), `timestamp` (the original unmodified payload value, not
re-normalised), `price` as the `Decimal` of `str(price)` (never a binary
float), the server-generated `processed_at`, plus `volume` (parsed to
integer) iff present and `exchange` (unmodified) iff present — and nothing
else. -/
theorem canonical_item_shape (now : String) (p : Payload) (sv pv tv : JVal)
    (hval : validate_record p = true)
    (hsym : p.lookup ("symbol") = some sv)
    (hpr : p.lookup ("price") = some pv)
    (hts : p.lookup ("timestamp") = some tv)
    (hb : ∀ b, pv ≠ JVal.jbool b) :
    pyDecimalOfStr (pyStr pv) = some (priceDecOf pv) ∧
    (∀ vv, p.lookup ("volume") = some vv → pyIntOf vv = some (pyIntD vv)) ∧
    buildItem now p = some (
      [(("symbol" : String), DVal.raw sv), (("timestamp" : String), DVal.raw tv),
       (("price" : String), DVal.dec (priceDecOf pv)),
       (("processed_at" : String), DVal.str (now ++ "Z"))]
      ++ (match p.lookup ("volume") with
          | some vv => [(("volume" : String), DVal.int (pyIntD vv))]
          | none => [])
      ++ (match p.lookup ("exchange") with
          | some ev => [(("exchange" : String), DVal.raw ev)]
          | none => [])) := by
  unfold validate_record at hval
  rw [hsym, hpr, hts] at hval
  dsimp only at hval
  rw [Bool.and_eq_true] at hval
  obtain ⟨hcf, hvolval⟩ := hval
  have hdec : pyDecimalOfStr (pyStr pv) = some (priceDecOf pv) :=
    opt_eq_some_getD _ _ (canFloat_decimal pv hcf hb)
  have hvol : ∀ vv, p.lookup ("volume") = some vv → pyIntOf vv = some (pyIntD vv) := by
    intro vv hv
    rw [hv] at hvolval
    exact pyIntOf_eq_some_of_canInt vv hvolval
  refine ⟨hdec, hvol, ?_⟩
  rcases hv : p.lookup ("volume") with _ | vv
  · rcases he : p.lookup ("exchange") with _ | ev <;>
      simp [buildItem, hsym, hts, hpr, hdec, hv, he]
  · have h2 := hvol vv hv
    rcases he : p.lookup ("exchange") with _ | ev <;>
      simp [buildItem, hsym, hts, hpr, hdec, hv, he, h2]

/-- The frozen C6 is refuted at a payload whose `price` is the JSON boolean
`true`: `float(True)` succeeds, so the payload validates, but
`Decimal(str(True))` = `Decimal("True")` raises, so no Canonical Record is
built and the store writer returns false even with DynamoDB healthy. -/
theorem canonical_item_shape_cex :
    validate_record
        [(("symbol" : String), JVal.jstr ("A")), (("price" : String), JVal.jbool true),
         (("timestamp" : String), JVal.jstr ("2024-01-01T00:00:00Z"))] = true
    ∧ buildItem ("2025-03-07T14:30:10")
        [(("symbol" : String), JVal.jstr ("A")), (("price" : String), JVal.jbool true),
         (("timestamp" : String), JVal.jstr ("2024-01-01T00:00:00Z"))] = none
    ∧ (store_processed_data_in_dynamodb
        ⟨fun _ => .ok (.jnull), fun _ _ _ => true, fun _ _ => true, "2025-03-07T14:30:10"⟩
        [(("symbol" : String), JVal.jstr ("A")), (("price" : String), JVal.jbool true),
         (("timestamp" : String), JVal.jstr ("2024-01-01T00:00:00Z"))]).1 = false :=
  ⟨rfl, rfl, rfl⟩

/-- Concrete instance of C6 (amended) on the sample payload. -/
theorem canonical_item_shape_witness :
    buildItem ("2025-03-07T14:30:10.123456") samplePayload = some (
      [(("symbol" : String), DVal.raw (JVal.jstr ("AAPL"))),
       (("timestamp" : String), DVal.raw (JVal.jstr ("2025-03-07T14:30:09Z"))),
       (("price" : String), DVal.dec (priceDecOf (JVal.jstr ("199.5")))),
       (("processed_at" : String), DVal.str ("2025-03-07T14:30:10.123456" ++ "Z"))]
      ++ (match samplePayload.lookup ("volume") with
          | some vv => [(("volume" : String), DVal.int (pyIntD vv))]
          | none => [])
      ++ (match samplePayload.lookup ("exchange") with
          | some ev => [(("exchange" : String), DVal.raw ev)]
          | none => [])) :=
  (canonical_item_shape ("2025-03-07T14:30:10.123456") samplePayload
    (JVal.jstr ("AAPL")) (JVal.jstr ("199.5")) (JVal.jstr ("2025-03-07T14:30:09Z"))
    (by rfl) (by rfl) (by rfl) (by rfl)
    (fun b h => JVal.noConfusion h)).2.2
